import Mathlib

/-!
Shallow embedding of the 6502 emulator core (NES-rs): the packed status
register, the memory / stack / addressing-mode helpers, and the instruction
handlers that the claims concern.  Machine integers are modelled as Nat with
explicit bounds; a Rust operation that can panic in debug builds (checked
u8/u16/usize arithmetic, Vec index out of range) is modelled as an Option
returning none at the panicking input.  Memory is a total map Nat to Nat;
the emulator stores only u8 values, so concrete memories used below hold
bytes.
-/

set_option maxRecDepth 4096

namespace NES

/-- Memory is the 64 KiB byte vector, modelled as a total map. -/
abbrev Mem := Nat → Nat

/-- Pointwise update of a memory map, for modelling a Vec element write. -/
def writeMem (mem : Mem) (addr val : Nat) : Mem :=
  fun a => if a = addr then val else mem a

/-- Embeds utils combine_bytes: (upper shifted left 8) or-ed with lower, on u16. -/
def combine_bytes (upper lower : Nat) : Nat :=
  (upper <<< 8) ||| lower

/-- Embeds utils get_top_bit: (val shifted right 7) equals 1, on u8. -/
def get_top_bit (val : Nat) : Bool :=
  (val >>> 7) == 1

/-- Embeds utils check_bit: ((val shifted right (bit - 1)) and 1) equals 1.
The index argument is 1-based: check_bit val 1 reads bit 0. -/
def check_bit (val bit : Nat) : Bool :=
  ((val >>> (bit - 1)) &&& 1) == 1

/-- Embeds utils is_overflow: ((m xor res) and (n xor res) and 0x80) nonzero. -/
def is_overflow (res m n : Nat) : Bool :=
  ((m ^^^ res) &&& (n ^^^ res) &&& 0x80) != 0

/-- Embeds the Flags struct from registers.rs: eight boolean status flags. -/
structure Flags where
  carry : Bool
  zero : Bool
  inter_disable : Bool
  decimal : Bool
  break1 : Bool
  break2 : Bool
  overflow : Bool
  negative : Bool
deriving DecidableEq

/-- Embeds Flags::new: every flag clear. -/
def Flags.new : Flags :=
  ⟨false, false, false, false, false, false, false, false⟩

/-- Embeds Flags::to_u8: iterate over the array
[negative, overflow, break1, break2, decimal, inter_disable, zero, carry]
with enumerate index ind, or-ing 1 shifted left (7 - ind) when the flag is set. -/
def Flags.to_u8 (f : Flags) : Nat :=
  let flags := [f.negative, f.overflow, f.break1, f.break2,
                f.decimal, f.inter_disable, f.zero, f.carry]
  flags.enum.foldl (fun res p => if p.2 then res ||| (1 <<< (7 - p.1)) else res) 0

/-- Embeds the From u8 impl for Flags: each field read with 1-based check_bit. -/
def Flags.fromByte (val : Nat) : Flags where
  carry := check_bit val 1
  zero := check_bit val 2
  inter_disable := check_bit val 3
  decimal := check_bit val 4
  break2 := check_bit val 5
  break1 := check_bit val 6
  overflow := check_bit val 7
  negative := check_bit val 8

/-- Embeds peek_stack: reads memory at sp + 1 (Vec index panics at 65536). -/
def peek_stack (mem : Mem) (sp : Nat) : Option Nat :=
  if 65536 ≤ sp + 1 then none else some (mem (sp + 1))

/-- Embeds push_stack: writes the item to memory at sp (no 0x0100 offset),
then decrements sp; sp is a usize, so the decrement at sp = 0 underflows
(panic), and the Vec index requires sp below 65536. -/
def push_stack (mem : Mem) (sp item : Nat) : Option (Mem × Nat) :=
  if 65536 ≤ sp then none
  else if sp = 0 then none
  else some (writeMem mem sp item, sp - 1)

/-- Embeds pop_stack: peek_stack, then increment sp, returning the peeked value. -/
def pop_stack (mem : Mem) (sp : Nat) : Option (Nat × Nat) :=
  match peek_stack mem sp with
  | none => none
  | some val => some (val, sp + 1)

/-- Embeds fetch_next_byte: pc incremented first (u16 add, checked), then the
byte at the new pc is returned together with the new pc. -/
def fetch_next_byte (mem : Mem) (pc : Nat) : Option (Nat × Nat) :=
  if 65536 ≤ pc + 1 then none else some (mem (pc + 1), pc + 1)

/-- Embeds fetch_two_bytes: reads the bytes at pc + 1 and pc + 2 and advances
pc by 2 (u16 adds, checked). -/
def fetch_two_bytes (mem : Mem) (pc : Nat) : Option ((Nat × Nat) × Nat) :=
  if 65536 ≤ pc + 2 then none else some ((mem (pc + 1), mem (pc + 2)), pc + 2)

/-- Embeds fetch_abs: the first fetched byte is bound to upper, the second to
lower, and the effective address is combine_bytes upper lower. -/
def fetch_abs (mem : Mem) (pc : Nat) : Option (Nat × Nat) :=
  match fetch_two_bytes mem pc with
  | none => none
  | some ((upper, lower), pc2) => some (combine_bytes upper lower, pc2)

/-- Embeds fetch_absx: fetch_abs plus regx (usize add). -/
def fetch_absx (mem : Mem) (pc regx : Nat) : Option (Nat × Nat) :=
  match fetch_two_bytes mem pc with
  | none => none
  | some ((upper, lower), pc2) => some (combine_bytes upper lower + regx, pc2)

/-- Embeds fetch_absy: fetch_abs plus regy (usize add). -/
def fetch_absy (mem : Mem) (pc regy : Nat) : Option (Nat × Nat) :=
  match fetch_two_bytes mem pc with
  | none => none
  | some ((upper, lower), pc2) => some (combine_bytes upper lower + regy, pc2)

/-- Embeds fetch_indirect: the two operand bytes form the pointer with the
first byte as the high half; the two bytes at the pointer (low first) form
the effective address.  The read at addr + 1 is a Vec index (checked). -/
def fetch_indirect (mem : Mem) (pc : Nat) : Option (Nat × Nat) :=
  match fetch_two_bytes mem pc with
  | none => none
  | some ((upper, lower), pc2) =>
    let addr := combine_bytes upper lower
    if 65536 ≤ addr + 1 then none
    else some (combine_bytes (mem (addr + 1)) (mem addr), pc2)

/-- Embeds fetch_indirecty: zp_addr is the operand byte plus regy with u8
wrap; base is the single byte stored there; the effective address is the two
bytes at base (low first). -/
def fetch_indirecty (mem : Mem) (pc regy : Nat) : Option (Nat × Nat) :=
  match fetch_next_byte mem pc with
  | none => none
  | some (b, pc1) =>
    let zp_addr := (b + regy) % 256
    let base := mem zp_addr
    some (combine_bytes (mem (base + 1)) (mem base), pc1)

/-- Embeds adc on (accumulator, operand, carry-in): the Rust code first adds
the carry to the operand with a plain u8 add (checked: none when it
overflows), then does overflowing_add against the accumulator.  Returns
(new A, carry, overflow, zero, negative). -/
def adc (rega val : Nat) (carry : Bool) : Option (Nat × Bool × Bool × Bool × Bool) :=
  let c : Nat := if carry then 1 else 0
  if 256 ≤ val + c then none
  else
    let res := (rega + (val + c)) % 256
    let carryOut := decide (256 ≤ rega + (val + c))
    some (res, carryOut, is_overflow res rega val, res == 0, get_top_bit res)

/-- Embeds bit on (accumulator, operand): returns
(zero, overflow, negative) = ((A and M) equals 0, check_bit M 6, check_bit M 7);
the accumulator is not written. -/
def bit (rega val : Nat) : Bool × Bool × Bool :=
  let res := rega &&& val
  (res == 0, check_bit val 6, check_bit val 7)

/-- Embeds bcc_or_bcs: fetch the displacement byte, then add it to pc (u16
add, checked) when the carry flag equals branch_on_set. -/
def bcc_or_bcs (mem : Mem) (pc : Nat) (carry branch_on_set : Bool) : Option Nat :=
  match fetch_next_byte mem pc with
  | none => none
  | some (displace, pc1) =>
    if carry = branch_on_set then
      if 65536 ≤ pc1 + displace then none else some (pc1 + displace)
    else some pc1

/-- Embeds beq_or_bne, same shape on the zero flag. -/
def beq_or_bne (mem : Mem) (pc : Nat) (zero should_be_zero : Bool) : Option Nat :=
  match fetch_next_byte mem pc with
  | none => none
  | some (displace, pc1) =>
    if zero = should_be_zero then
      if 65536 ≤ pc1 + displace then none else some (pc1 + displace)
    else some pc1

/-- Embeds bmi: branch when the negative flag is set. -/
def bmi (mem : Mem) (pc : Nat) (negative : Bool) : Option Nat :=
  match fetch_next_byte mem pc with
  | none => none
  | some (displace, pc1) =>
    if negative then
      if 65536 ≤ pc1 + displace then none else some (pc1 + displace)
    else some pc1

/-- Embeds bpl: branch when the negative flag is clear. -/
def bpl (mem : Mem) (pc : Nat) (negative : Bool) : Option Nat :=
  match fetch_next_byte mem pc with
  | none => none
  | some (displace, pc1) =>
    if negative then some pc1
    else if 65536 ≤ pc1 + displace then none else some (pc1 + displace)

/-- Embeds bvs_or_bvc, same shape on the overflow flag. -/
def bvs_or_bvc (mem : Mem) (pc : Nat) (overflow check_for_set : Bool) : Option Nat :=
  match fetch_next_byte mem pc with
  | none => none
  | some (displace, pc1) =>
    if overflow = check_for_set then
      if 65536 ≤ pc1 + displace then none else some (pc1 + displace)
    else some pc1

/-- Embeds pull_register: pop one byte; with pull_accum it loads A and sets
Z and N, otherwise it replaces the whole flag register with Flags.fromByte of
the popped byte.  Returns (rega, flags, sp). -/
def pull_register (mem : Mem) (sp rega : Nat) (flags : Flags) (pull_accum : Bool) :
    Option (Nat × Flags × Nat) :=
  match pop_stack mem sp with
  | none => none
  | some (popped, sp1) =>
    if pull_accum then
      some (popped, { flags with zero := popped == 0, negative := get_top_bit popped }, sp1)
    else
      some (rega, Flags.fromByte popped, sp1)

/-- Embeds pull_pc: pop upper, pop lower, pc := combine_bytes upper lower. -/
def pull_pc (mem : Mem) (sp : Nat) : Option (Nat × Nat) :=
  match pop_stack mem sp with
  | none => none
  | some (upper, sp1) =>
    match pop_stack mem sp1 with
    | none => none
    | some (lower, sp2) => some (combine_bytes upper lower, sp2)

/-- Embeds rti: pull_register with pull_accum false, then pull_pc.
Returns (pc, rega, flags, sp). -/
def rti (mem : Mem) (sp rega : Nat) (flags : Flags) : Option (Nat × Nat × Flags × Nat) :=
  match pull_register mem sp rega flags false with
  | none => none
  | some (rega1, flags1, sp1) =>
    match pull_pc mem sp1 with
    | none => none
    | some (pc1, sp2) => some (pc1, rega1, flags1, sp2)

/-- The two return opcodes, to embed the dispatch arm
Ops::Rti | Ops::Rts from exec_instruction. -/
inductive Ops where
  | Rti
  | Rts
deriving DecidableEq

/-- Embeds the exec_instruction dispatch for the return opcodes: both Rti and
Rts run the rti handler. -/
def exec_instruction (op : Ops) (mem : Mem) (sp rega : Nat) (flags : Flags) :
    Option (Nat × Nat × Flags × Nat) :=
  match op with
  | .Rti => rti mem sp rega flags
  | .Rts => rti mem sp rega flags

/-- Concrete memory: displacement byte 0x80 at address 0x1001. -/
def branchSampleMem : Mem :=
  fun a => if a = 0x1001 then 0x80 else 0

/-- Concrete memory: operand bytes 0x56 and 0x63 at addresses 1 and 2. -/
def absSampleMem : Mem :=
  fun a => if a = 1 then 0x56 else if a = 2 then 0x63 else 0

/-- Concrete memory for the indirect jump: operand bytes 0x01, 0x20 and the
pointer target bytes 0xFC, 0xBA at 0x0120 and 0x0121. -/
def indSampleMem : Mem :=
  fun a =>
    if a = 1 then 0x01 else if a = 2 then 0x20
    else if a = 0x120 then 0xFC else if a = 0x121 then 0xBA else 0

/-- Concrete memory for IndirectY: operand byte 0x0A at 1, zero-page byte
0x24 at 0x14, and the bytes 0x45, 0x34 at 0x24 and 0x25. -/
def indySampleMem : Mem :=
  fun a =>
    if a = 1 then 0x0A else if a = 0x14 then 0x24
    else if a = 0x24 then 0x45 else if a = 0x25 then 0x34 else 0

/-- Concrete memory holding a stack frame: status byte 0x01 at 0xFD and the
pc bytes 0x45, 0x67 at 0xFE and 0xFF (stack pointer at 0xFC). -/
def rtsSampleMem : Mem :=
  fun a => if a = 0xFD then 0x01 else if a = 0xFE then 0x45 else if a = 0xFF then 0x67 else 0

/-- C1: ADC is claimed to compute the 9-bit sum A + M + C without trapping for
every input, including M = 0xFF with C = 1.  The code instead adds the carry
to the operand with a plain u8 add, which overflows at M = 0xFF, C = 1, so
adc returns none there (debug panic; in release the wrap silently drops the
carry-out).  The second conjunct shows the handler does follow the 9-bit
semantics on an input where the operand-plus-carry add does not overflow. -/
theorem adc_overflowing_operand_bug :
    adc 0 0xFF true = none ∧
    adc 255 5 false = some (4, true, false, false, false) := by
  constructor <;> rfl

/-- C2: push is claimed to write to 0x0100 + S and wrap S at 0: the code
writes to address S itself (here 0x00FF, leaving 0x01FF untouched), pop reads
back from S + 1 with no stack-page offset, and push at S = 0 underflows the
usize stack pointer instead of wrapping to 0xFF. -/
theorem push_stack_page_bug :
    push_stack (fun _ => 0) 0xFF 0x42 = some (writeMem (fun _ => 0) 0xFF 0x42, 0xFE) ∧
    writeMem (fun _ => 0) 0xFF 0x42 0xFF = 0x42 ∧
    writeMem (fun _ => 0) 0xFF 0x42 0x1FF = 0 ∧
    pop_stack (writeMem (fun _ => 0) 0xFF 0x42) 0xFE = some (0x42, 0xFF) ∧
    push_stack (fun _ => 0) 0 0x42 = none := by
  refine ⟨rfl, rfl, rfl, rfl, rfl⟩

/-- C3: a taken branch with displacement byte 0x80 is claimed to move pc
backward by 128 (sign extension), to 0x0F81 from pc 0x1000.  Every branch
handler instead zero-extends the displacement and lands at 0x1081.  The last
conjunct records the address the claim requires. -/
theorem branch_sign_extension_bug :
    bcc_or_bcs branchSampleMem 0x1000 true true = some 0x1081 ∧
    beq_or_bne branchSampleMem 0x1000 true true = some 0x1081 ∧
    bmi branchSampleMem 0x1000 true = some 0x1081 ∧
    bpl branchSampleMem 0x1000 false = some 0x1081 ∧
    bvs_or_bvc branchSampleMem 0x1000 true true = some 0x1081 ∧
    (0x1001 + 0xFF80) % 0x10000 = 0x0F81 := by
  refine ⟨rfl, rfl, rfl, rfl, rfl, rfl⟩

/-- C4: the absolute resolver is claimed to be little-endian (first fetched
byte is the low half, so bytes 0x56, 0x63 should give 0x6356).  The code
binds the first byte to the high half and returns 0x5663, and the same order
governs AbsoluteX, AbsoluteY and the Indirect pointer fetch (which resolves
the operand bytes 0x01, 0x20 to pointer 0x0120 rather than 0x2001). -/
theorem fetch_abs_byte_order_bug :
    fetch_abs absSampleMem 0 = some (0x5663, 2) ∧
    fetch_absx absSampleMem 0 2 = some (0x5665, 2) ∧
    fetch_absy absSampleMem 0 3 = some (0x5666, 2) ∧
    fetch_indirect indSampleMem 0 = some (0xBAFC, 2) := by
  refine ⟨rfl, rfl, rfl, rfl⟩

/-- C5: pack and unpack of the status register are mutually inverse: for
every Flags value f, Flags.fromByte f.to_u8 = f, and for every byte b,
Flags.to_u8 (Flags.fromByte b) = b. -/
theorem flags_pack_unpack_roundtrip :
    (∀ f : Flags, Flags.fromByte f.to_u8 = f) ∧
    (∀ b : Fin 256, Flags.to_u8 (Flags.fromByte b.1) = b.1) := by
  constructor
  · intro f
    obtain ⟨c, z, i, d, b1, b2, v, n⟩ := f
    cases c <;> cases z <;> cases i <;> cases d <;>
      cases b1 <;> cases b2 <;> cases v <;> cases n <;> rfl
  · decide

/-- C6 counterexample: the claim places B2 at bit 5 and B1 at bit 4, so a
flag state with break1 true and break2 false should pack with bit 4 set and
bit 5 clear; the code packs that state the other way around (bit 4 clear,
bit 5 set). -/
theorem flags_break_bits_counterexample :
    Nat.testBit (Flags.to_u8 ⟨false, false, false, false, true, false, false, false⟩) 4 = false ∧
    Nat.testBit (Flags.to_u8 ⟨false, false, false, false, true, false, false, false⟩) 5 = true := by
  constructor <;> rfl

/-- C6 amended: to_u8 places N at bit 7, V at bit 6, B1 at bit 5, B2 at
bit 4, D at bit 3, I at bit 2, Z at bit 1 and C at bit 0 (the two break bits
swap places relative to the claim); in particular a flag state with B1 true
and B2 false packs with bit 5 set and bit 4 clear. -/
theorem flags_bit_layout_amended (f : Flags) :
    Nat.testBit f.to_u8 7 = f.negative ∧
    Nat.testBit f.to_u8 6 = f.overflow ∧
    Nat.testBit f.to_u8 5 = f.break1 ∧
    Nat.testBit f.to_u8 4 = f.break2 ∧
    Nat.testBit f.to_u8 3 = f.decimal ∧
    Nat.testBit f.to_u8 2 = f.inter_disable ∧
    Nat.testBit f.to_u8 1 = f.zero ∧
    Nat.testBit f.to_u8 0 = f.carry := by
  obtain ⟨c, z, i, d, b1, b2, v, n⟩ := f
  cases c <;> cases z <;> cases i <;> cases d <;>
    cases b1 <;> cases b2 <;> cases v <;> cases n <;> exact ⟨rfl, rfl, rfl, rfl, rfl, rfl, rfl, rfl⟩

/-- C7: BIT is claimed to set N to bit 7 of M and V to bit 6 of M.  With
M = 0x80 (bit 7 set, bit 6 clear) the claim requires N true and V false, but
the handler calls the 1-based check_bit with indices 7 and 6, reading bits 6
and 5 of M, and leaves both flags false.  The result triple of bit is
(zero, overflow, negative). -/
theorem bit_flag_positions_bug :
    bit 0xFF 0x80 = (false, false, false) ∧
    Nat.testBit 0x80 7 = true ∧
    Nat.testBit 0x80 6 = false := by
  refine ⟨rfl, rfl, rfl⟩

/-- C8: RTS is claimed to pop exactly two bytes, add 1 to the combined value
and leave P unchanged.  The dispatch sends Rts to the rti handler, which on
this stack frame pops three bytes: the status byte 0x01 is loaded into P
(carry becomes set although it started clear), and pc becomes exactly the
combined 0x4567 with no +1, with sp advanced by three. -/
theorem rts_dispatch_bug :
    exec_instruction Ops.Rts rtsSampleMem 0xFC 0 Flags.new =
      some (0x4567, 0, Flags.fromByte 0x01, 0xFF) ∧
    (Flags.fromByte 0x01).carry = true ∧
    Flags.new.carry = false := by
  refine ⟨rfl, rfl, rfl⟩

/-- C9: IndirectY is claimed to take the two bytes of the effective address
directly from the zero-page pointer ptr = (operand + Y) mod 256, which here
would give 0x0024 (second conjunct).  The code instead reads the single byte
at ptr, uses it as a new base, and reads the address bytes there, returning
0x3445 - one further level of indirection. -/
theorem fetch_indirecty_double_indirection_bug :
    fetch_indirecty indySampleMem 0 10 = some (0x3445, 1) ∧
    combine_bytes (indySampleMem 0x15) (indySampleMem 0x14) = 0x0024 := by
  constructor <;> rfl

/-- C10: operand fetches pre-increment the program counter: fetch_next_byte
returns the byte at the new pc = pc + 1, fetch_two_bytes returns the bytes
at pc + 1 and pc + 2 while advancing pc by 2, fetch_abs consumes its two
operand bytes starting at old pc + 1, and after a not-taken branch (an
operand-consuming instruction) pc rests on the displacement byte just
consumed, not one past it. -/
theorem operand_fetch_pre_increment (mem : Mem) (pc : Nat) (h : pc + 2 < 65536) :
    fetch_next_byte mem pc = some (mem (pc + 1), pc + 1) ∧
    fetch_two_bytes mem pc = some ((mem (pc + 1), mem (pc + 2)), pc + 2) ∧
    fetch_abs mem pc = some (combine_bytes (mem (pc + 1)) (mem (pc + 2)), pc + 2) ∧
    bcc_or_bcs mem pc true false = some (pc + 1) := by
  have h1 : ¬ (65536 ≤ pc + 1) := by omega
  have h2 : ¬ (65536 ≤ pc + 2) := by omega
  refine ⟨?_, ?_, ?_, ?_⟩ <;>
    simp [fetch_next_byte, fetch_two_bytes, fetch_abs, bcc_or_bcs, h1, h2]

/-- Witness for C10 at pc = 0 on the constant-7 memory. -/
theorem operand_fetch_pre_increment_witness :
    fetch_next_byte (fun _ => 7) 0 = some (7, 1) ∧
    fetch_two_bytes (fun _ => 7) 0 = some ((7, 7), 2) ∧
    fetch_abs (fun _ => 7) 0 = some (combine_bytes 7 7, 2) ∧
    bcc_or_bcs (fun _ => 7) 0 true false = some 1 :=
  operand_fetch_pre_increment (fun _ => 7) 0 (by decide)

end NES
